import Mathlib

/-!
Shallow embedding of `src/mb_enhanced_cover_art_uploads/seeding/atisket/dimensions.ts`:
a bounded localStorage-backed image-info cache (`localStorageCache`) and a retrying
header-only metadata fetcher (`AtisketImage.loadFileInfo`).

JavaScript objects with string keys preserve insertion order, so a `CacheStore`
(`Record<string, CacheEntry>`) is embedded as an insertion-ordered association list
with (in well-formed states) no duplicate keys.  Epoch-millisecond datetimes are
embedded as `Nat`.
-/

namespace Dims

/-- `Dimensions` from `@src/mb_caa_dimensions/ImageInfo`. -/
structure Dimensions where
  width : Nat
  height : Nat
deriving Repr, DecidableEq

/-- `FileInfo` from `@src/mb_caa_dimensions/ImageInfo`: both fields optional. -/
structure FileInfo where
  fileType : Option String
  size : Option Nat
deriving Repr, DecidableEq

/-- `CacheEntry`: two independently optional payload fields plus the write timestamp. -/
structure CacheEntry where
  dimensions : Option Dimensions
  fileInfo : Option FileInfo
  addedDatetime : Nat
deriving Repr, DecidableEq

/-- `Omit<CacheEntry, 'addedDatetime'>`: the argument type of `putInfo`. -/
structure CachePayload where
  dimensions : Option Dimensions
  fileInfo : Option FileInfo
deriving Repr, DecidableEq

/-- `CacheStore = Record<string, CacheEntry>`, as an insertion-ordered association list. -/
abbrev CacheStore := List (String × CacheEntry)

def MAX_CACHED_IMAGES : Nat := 30

/-- `store[key]`: JS object property lookup (keys are unique in well-formed stores). -/
def storeLookup (store : CacheStore) (key : String) : Option CacheEntry :=
  (store.find? (fun kv => kv.1 == key)).map Prod.snd

/-- `{...prevStore, [imageUrl]: entry}`: if `imageUrl` is already a key its value is
replaced in place, otherwise the new binding is appended at the end. -/
def storeInsert : CacheStore → String → CacheEntry → CacheStore
  | [], key, e => [(key, e)]
  | kv :: rest, key, e =>
      if kv.1 == key then (key, e) :: rest else kv :: storeInsert rest key e

/-- The comparator `([, info1], [, info2]) => info2.addedDatetime - info1.addedDatetime`
passed to `Array.prototype.sort`: element `a` sorts no later than `b` iff
`b.addedDatetime ≤ a.addedDatetime` (descending by `addedDatetime`). -/
def evictLE (a b : String × CacheEntry) : Bool :=
  b.2.addedDatetime ≤ a.2.addedDatetime

/-- The eviction block of `putInfo`: when the store holds `MAX_CACHED_IMAGES` or more
entries, sort them most-recent-first and delete every entry beyond position
`MAX_CACHED_IMAGES - 1` from the store. -/
def evict (prevStore : CacheStore) : CacheStore :=
  if MAX_CACHED_IMAGES ≤ prevStore.length then
    let sorted := prevStore.mergeSort evictLE
    let toDelete := (sorted.drop (MAX_CACHED_IMAGES - 1)).map Prod.fst
    prevStore.filter (fun kv => !(toDelete.contains kv.1))
  else prevStore

/-- The pure store-to-store effect of `putInfo(imageUrl, cacheEntry)` given the
previously persisted store and the value of `Date.now()`: evict on the pre-update
snapshot, then write `{...cacheEntry, addedDatetime: Date.now()}` under `imageUrl`. -/
def putInfoStore (prevStore : CacheStore) (imageUrl : String) (cacheEntry : CachePayload)
    (now : Nat) : CacheStore :=
  storeInsert (evict prevStore) imageUrl
    ⟨cacheEntry.dimensions, cacheEntry.fileInfo, now⟩

/-- Modelled from the spec: the persisted representation under
`CACHE_LOCALSTORAGE_KEY` in `localStorage`, together with `safeParseJSON`
(from `@lib/util/json`, not part of this excerpt).  The slot is either absent
(`getItem` returns `null`, so `'{}'` is parsed, yielding the empty store), holds
JSON that deserializes to a store object, or is malformed (fails to parse, so
`safeParseJSON` yields no value). -/
inductive Persisted where
  | absent
  | valid (store : CacheStore)
  | malformed
deriving Repr, DecidableEq

/-- The observable state of the cache component: the persisted slot plus counters
for the two externally visible side effects (`LOGGER.warn` calls and
`localStorage.setItem` calls made through `putStore`). -/
structure CacheState where
  persisted : Persisted
  warnings : Nat
  putStoreCalls : Nat
deriving Repr, DecidableEq

/-- `putStore(store)`: serialize and persist the full store, overwriting prior content. -/
def putStore (st : CacheState) (store : CacheStore) : CacheState :=
  { st with persisted := .valid store, putStoreCalls := st.putStoreCalls + 1 }

/-- `getStore()`: parse the persisted slot; on malformed data log a warning, persist
an empty store and return the empty store. -/
def getStore (st : CacheState) : CacheStore × CacheState :=
  match st.persisted with
  | .absent => ([], st)
  | .valid store => (store, st)
  | .malformed => ([], putStore { st with warnings := st.warnings + 1 } [])

/-- `getInfo(imageUrl)`: `this.getStore()[imageUrl]`. -/
def getInfo (st : CacheState) (imageUrl : String) : Option CacheEntry × CacheState :=
  let (store, st') := getStore st
  (storeLookup store imageUrl, st')

/-- `putInfo(imageUrl, cacheEntry)` as a state transformer, with `Date.now()`
passed in as `now`. -/
def putInfo (st : CacheState) (imageUrl : String) (cacheEntry : CachePayload)
    (now : Nat) : CacheState :=
  let (prevStore, st') := getStore st
  putStore st' (putInfoStore prevStore imageUrl cacheEntry now)

/-- `getDimensions(imageUrl)`: the `dimensions` field of the entry, if any. -/
def getDimensions (st : CacheState) (imageUrl : String) : Option Dimensions × CacheState :=
  let (entry, st') := getInfo st imageUrl
  (entry.bind (·.dimensions), st')

/-- `getFileInfo(imageUrl)`: the `fileInfo` field of the entry, if any. -/
def getFileInfo (st : CacheState) (imageUrl : String) : Option FileInfo × CacheState :=
  let (entry, st') := getInfo st imageUrl
  (entry.bind (·.fileInfo), st')

/-- `putDimensions(imageUrl, dimensions)`: read the previous entry, then
`putInfo(imageUrl, {...prevEntry, dimensions})`. -/
def putDimensions (st : CacheState) (imageUrl : String) (dimensions : Dimensions)
    (now : Nat) : CacheState :=
  let (prevEntry, st') := getInfo st imageUrl
  putInfo st' imageUrl ⟨some dimensions, prevEntry.bind (·.fileInfo)⟩ now

/-- `putFileInfo(imageUrl, fileInfo)`: read the previous entry, then
`putInfo(imageUrl, {...prevEntry, fileInfo})`. -/
def putFileInfo (st : CacheState) (imageUrl : String) (fileInfo : FileInfo)
    (now : Nat) : CacheState :=
  let (prevEntry, st') := getInfo st imageUrl
  putInfo st' imageUrl ⟨prevEntry.bind (·.dimensions), some fileInfo⟩ now

/-- Lookup in the persisted store of a state (none when the slot is not valid JSON). -/
def stateLookup (st : CacheState) (key : String) : Option CacheEntry :=
  match st.persisted with
  | .valid store => storeLookup store key
  | _ => none

/-! ## The retrying metadata fetcher (`AtisketImage.loadFileInfo`) -/

/-- The response delivered by `gmxhr` on success: only `responseHeaders` (the raw
header block as one string) is consumed by `loadFileInfo`. -/
structure HTTPResponse where
  responseHeaders : String
deriving Repr, DecidableEq

/-- Modelled from the spec: the failures raised by `gmxhr` (`@lib/util/xhr`, not part
of this excerpt).  A structured `HTTPResponseError` carries the response status code
and is raised only for status codes of 400 and above; every other failure (network
error, abort, timeout) is unstructured. -/
inductive FetchError where
  | httpResponseError (statusCode : Nat) (message : String)
  | networkError (message : String)
deriving Repr, DecidableEq

/-- The guard in `onFailedAttempt`:
`err instanceof HTTPResponseError && err.statusCode < 500 && err.statusCode !== 429`.
When true, the error is re-thrown from the callback, aborting the retry loop. -/
def shouldAbort : FetchError → Bool
  | .httpResponseError statusCode _ => statusCode < 500 && statusCode != 429
  | .networkError _ => false

/-- Aggregate observable outcome of the retry loop: the final result, the number of
attempts made, and the number of warnings logged by `onFailedAttempt`. -/
structure RetryOutcome where
  result : Except FetchError HTTPResponse
  attemptsMade : Nat
  warningsLogged : Nat
deriving Repr

/-- Modelled from the spec: `pRetry(op, { retries: 5, onFailedAttempt })`.  The
environment is a function `op` giving the outcome of each attempt (attempt `i` is
`op i`).  Each failed attempt invokes `onFailedAttempt`; if that callback re-throws
(the `shouldAbort` guard) the loop stops with that error and nothing is logged for
the attempt, otherwise a warning is logged and, while retries remain, the operation
is attempted again; when retries are exhausted the last error is propagated. -/
def pRetryAux (op : Nat → Except FetchError HTTPResponse)
    (attempt retriesLeft warnings : Nat) : RetryOutcome :=
  match op attempt, retriesLeft with
  | .ok resp, _ => ⟨.ok resp, attempt + 1, warnings⟩
  | .error e, 0 =>
      if shouldAbort e then ⟨.error e, attempt + 1, warnings⟩
      else ⟨.error e, attempt + 1, warnings + 1⟩
  | .error e, n + 1 =>
      if shouldAbort e then ⟨.error e, attempt + 1, warnings⟩
      else pRetryAux op (attempt + 1) n (warnings + 1)

/-- The retry phase of `loadFileInfo`: `pRetry` with `retries: 5`, starting at the
first attempt with no warnings logged yet. -/
def pRetryRun (op : Nat → Except FetchError HTTPResponse) : RetryOutcome :=
  pRetryAux op 0 5 0

/-! ### Header extraction

`loadFileInfo` runs two case-insensitive regexes over `resp.responseHeaders`:
`/content-length: (\d+)/i` and `/content-type: \w+\/(\w+)/i`, each taking the first
match in the string.  The embedding works on `List Char` and mirrors the regexes
character class by character class (`\d` is `[0-9]`, `\w` is `[A-Za-z0-9_]`). -/

/-- JS `\w`: ASCII letters, digits and underscore. -/
def isWordChar (c : Char) : Bool :=
  c.isAlpha || c.isDigit || c == '_'

/-- Case-insensitive literal match of `pat` against a prefix of `cs`; on success
returns the rest of the input. -/
def matchLitCI : List Char → List Char → Option (List Char)
  | [], cs => some cs
  | _ :: _, [] => none
  | p :: ps, c :: cs => if p.toLower == c.toLower then matchLitCI ps cs else none

/-- `/content-length: (\d+)/i` anchored at the current position: the literal
`content-length: ` followed by a maximal nonempty digit run, which is captured. -/
def matchContentLengthAt (cs : List Char) : Option (List Char) :=
  match matchLitCI "content-length: ".data cs with
  | none => none
  | some rest =>
      if (rest.takeWhile Char.isDigit).isEmpty then none
      else some (rest.takeWhile Char.isDigit)

/-- `/content-type: \w+\/(\w+)/i` anchored at the current position: the literal
`content-type: ` followed by a nonempty word run, a `/`, and a maximal nonempty
word run, which is captured.  (The greedy `\w+` cannot backtrack usefully here
since `/` is not a word character.) -/
def matchContentTypeAt (cs : List Char) : Option (List Char) :=
  match matchLitCI "content-type: ".data cs with
  | none => none
  | some rest =>
      if (rest.takeWhile isWordChar).isEmpty then none
      else
        match rest.drop (rest.takeWhile isWordChar).length with
        | '/' :: rest2 =>
            if (rest2.takeWhile isWordChar).isEmpty then none
            else some (rest2.takeWhile isWordChar)
        | _ => none

/-- `String.prototype.match`: return the first (leftmost) position at which the
anchored matcher succeeds. -/
def scanFirst (f : List Char → Option (List Char)) : List Char → Option (List Char)
  | [] => f []
  | c :: cs =>
      match f (c :: cs) with
      | some r => some r
      | none => scanFirst f cs

/-- `parseInt` on a string of decimal digits. -/
def parseIntNat (ds : List Char) : Nat :=
  ds.foldl (fun acc c => acc * 10 + (c.toNat - '0'.toNat)) 0

/-- `String.prototype.toUpperCase` on the ASCII captures produced here: upper-case
character by character. -/
def toUpperStr (w : List Char) : String :=
  String.mk (w.map Char.toUpper)

/-- The success path of `loadFileInfo`: extract `content-length` and `content-type`
from the raw header block; the file type is the captured subtype upper-cased, the
size is the captured digit run parsed as an integer; either may be absent. -/
def extractFileInfo (responseHeaders : String) : FileInfo :=
  { fileType := (scanFirst matchContentTypeAt responseHeaders.data).map toUpperStr
    size := (scanFirst matchContentLengthAt responseHeaders.data).map parseIntNat }

/-- Observable outcome of a whole `loadFileInfo` call. -/
structure LoadOutcome where
  result : Except FetchError FileInfo
  attemptsMade : Nat
  warningsLogged : Nat
deriving Repr

/-- `AtisketImage.loadFileInfo`, over an environment `op` giving each attempt's
outcome: run `pRetry` and, on eventual success, extract the file info from the
response headers. -/
def loadFileInfo (op : Nat → Except FetchError HTTPResponse) : LoadOutcome :=
  let o := pRetryRun op
  ⟨o.result.map (fun resp => extractFileInfo resp.responseHeaders),
    o.attemptsMade, o.warningsLogged⟩

/-! ## Concrete fixtures used by witness theorems -/

/-- A full store: 30 entries with pairwise distinct keys and timestamps.  Entry `i`
has key `"k" ++ toString i` and timestamp `100 + i`, so `"k0"` is the oldest. -/
def store30 : CacheStore :=
  (List.range 30).map (fun i => ("k" ++ toString i, ⟨none, none, 100 + i⟩))

/-- An attempt environment that always fails with HTTP 404. -/
def opAlways404 : Nat → Except FetchError HTTPResponse :=
  fun _ => .error (.httpResponseError 404 "HTTP error 404")

/-- An attempt environment that always fails with HTTP 500. -/
def opAlways500 : Nat → Except FetchError HTTPResponse :=
  fun _ => .error (.httpResponseError 500 "HTTP error 500")

/-- An attempt environment: HTTP 429 on the first three attempts, then success. -/
def op429Then200 : Nat → Except FetchError HTTPResponse :=
  fun i =>
    if i < 3 then .error (.httpResponseError 429 "HTTP error 429")
    else .ok ⟨"Content-Length: 12345\r\nContent-Type: image/png"⟩

/-- An attempt environment that succeeds immediately. -/
def opOk : Nat → Except FetchError HTTPResponse :=
  fun _ => .ok ⟨"Content-Length: 12345\r\nContent-Type: image/png"⟩

/-- An attempt environment that always fails with an unstructured network error. -/
def opNetErr : Nat → Except FetchError HTTPResponse :=
  fun _ => .error (.networkError "network error")

/-! ## Lemmas about store operations -/

theorem length_storeInsert_le (s : CacheStore) (k : String) (e : CacheEntry) :
    (storeInsert s k e).length ≤ s.length + 1 := by
  induction s with
  | nil => simp [storeInsert]
  | cons kv rest ih =>
      simp only [storeInsert]
      split
      · simp
      · simpa using Nat.succ_le_succ ih

theorem length_storeInsert_of_mem (s : CacheStore) (k : String) (e : CacheEntry)
    (h : k ∈ s.map Prod.fst) : (storeInsert s k e).length = s.length := by
  induction s with
  | nil => simp at h
  | cons kv rest ih =>
      simp only [storeInsert]
      split
      · simp
      · rename_i hne
        simp only [List.map_cons, List.mem_cons] at h
        rcases h with h | h
        · exact absurd (beq_iff_eq.mpr h.symm) hne
        · simpa using ih h

theorem storeInsert_of_not_mem (s : CacheStore) (k : String) (e : CacheEntry)
    (h : k ∉ s.map Prod.fst) : storeInsert s k e = s ++ [(k, e)] := by
  induction s with
  | nil => simp [storeInsert]
  | cons kv rest ih =>
      simp only [List.map_cons, List.mem_cons, not_or] at h
      simp only [storeInsert]
      rw [if_neg (by simpa using fun hh => h.1 (by simpa using hh.symm))]
      simp [ih h.2]

theorem lookup_storeInsert_self (s : CacheStore) (k : String) (e : CacheEntry) :
    storeLookup (storeInsert s k e) k = some e := by
  induction s with
  | nil => simp [storeInsert, storeLookup, List.find?]
  | cons kv rest ih =>
      simp only [storeInsert]
      split
      · simp [storeLookup, List.find?]
      · rename_i hne
        simpa [storeLookup, List.find?, hne] using ih

theorem lookup_storeInsert_ne (s : CacheStore) (k k' : String) (e : CacheEntry)
    (h : k' ≠ k) : storeLookup (storeInsert s k e) k' = storeLookup s k' := by
  induction s with
  | nil =>
      have h1 : (k == k') = false := beq_eq_false_iff_ne.mpr (fun hh => h hh.symm)
      simp [storeInsert, storeLookup, List.find?, h1]
  | cons kv rest ih =>
      simp only [storeInsert]
      split
      · rename_i heq
        have hk : kv.1 = k := beq_iff_eq.mp heq
        have h1 : (k == k') = false := beq_eq_false_iff_ne.mpr (fun hh => h hh.symm)
        have h2 : (kv.1 == k') = false := beq_eq_false_iff_ne.mpr (fun hh => h (hk ▸ hh).symm)
        simp [storeLookup, List.find?, h1, h2]
      · rename_i hne
        by_cases hk' : kv.1 == k'
        · simp [storeLookup, List.find?, hk']
        · simp only [storeLookup, List.find?, hk', Bool.false_eq_true, if_false] at *
          exact ih

theorem lookup_filter_key (s : CacheStore) (p : String → Bool) (k : String) :
    storeLookup (s.filter (fun kv => p kv.1)) k =
      if p k then storeLookup s k else none := by
  induction s with
  | nil => simp [storeLookup]
  | cons kv rest ih =>
      by_cases hkv : kv.1 == k
      · have hk : kv.1 = k := beq_iff_eq.mp hkv
        by_cases hp : p kv.1
        · simp [List.filter_cons, hp, storeLookup, List.find?, hkv, hk ▸ hp]
        · have hpk : p k = false := by rw [← hk]; simpa using hp
          simp [List.filter_cons, hp, ih, hpk]
      · by_cases hp : p kv.1
        · simpa [List.filter_cons, hp, storeLookup, List.find?, hkv] using ih
        · have hlk : storeLookup (kv :: rest) k = storeLookup rest k := by
            simp [storeLookup, List.find?, hkv]
          simp only [List.filter_cons]
          rw [if_neg (by simpa using hp), ih, hlk]

/-! ## Lemmas about eviction -/

theorem evict_of_lt (s : CacheStore) (h : s.length < MAX_CACHED_IMAGES) :
    evict s = s := by
  simp [evict, Nat.not_le.mpr h]

theorem evict_eq_filter (s : CacheStore) (h : MAX_CACHED_IMAGES ≤ s.length) :
    evict s = s.filter (fun kv =>
      !((((s.mergeSort evictLE).drop (MAX_CACHED_IMAGES - 1)).map Prod.fst).contains kv.1)) := by
  simp [evict, h]

theorem length_filter_drop_le (l s : List (String × CacheEntry)) (n : Nat)
    (hperm : List.Perm l s) :
    (s.filter (fun kv => !(((l.drop n).map Prod.fst).contains kv.1))).length ≤ n := by
  generalize hd : (l.drop n).map Prod.fst = dels
  have h1 : (s.filter (fun kv => !(dels.contains kv.1))).length
      = (l.filter (fun kv => !(dels.contains kv.1))).length :=
    ((hperm.filter _).length_eq).symm
  rw [h1]
  have h3 : (l.drop n).filter (fun kv => !(dels.contains kv.1)) = [] := by
    rw [List.filter_eq_nil_iff]
    intro kv hkv
    have hm : kv.1 ∈ dels := hd ▸ List.mem_map_of_mem Prod.fst hkv
    simp [hm]
  calc (l.filter (fun kv => !(dels.contains kv.1))).length
      = ((l.take n ++ l.drop n).filter (fun kv => !(dels.contains kv.1))).length := by
        rw [List.take_append_drop]
    _ = ((l.take n).filter (fun kv => !(dels.contains kv.1))).length := by
        rw [List.filter_append, h3, List.append_nil]
    _ ≤ (l.take n).length := List.length_filter_le _ _
    _ ≤ n := by
        rw [List.length_take]
        exact Nat.min_le_left _ _

theorem length_evict_le (s : CacheStore) (h : MAX_CACHED_IMAGES ≤ s.length) :
    (evict s).length ≤ MAX_CACHED_IMAGES - 1 := by
  rw [evict_eq_filter s h]
  exact length_filter_drop_le (s.mergeSort evictLE) s (MAX_CACHED_IMAGES - 1)
    (List.mergeSort_perm s evictLE)

theorem length_putInfoStore_le (s : CacheStore) (key : String) (payload : CachePayload)
    (now : Nat) : (putInfoStore s key payload now).length ≤ MAX_CACHED_IMAGES := by
  unfold putInfoStore
  rcases Nat.lt_or_ge s.length MAX_CACHED_IMAGES with h | h
  · calc (storeInsert (evict s) key _).length
        ≤ (evict s).length + 1 := length_storeInsert_le _ _ _
      _ = s.length + 1 := by rw [evict_of_lt s h]
      _ ≤ MAX_CACHED_IMAGES := h
  · calc (storeInsert (evict s) key _).length
        ≤ (evict s).length + 1 := length_storeInsert_le _ _ _
      _ ≤ (MAX_CACHED_IMAGES - 1) + 1 := Nat.add_le_add_right (length_evict_le s h) 1
      _ = MAX_CACHED_IMAGES := rfl

/-! ## State-level unfolding lemmas -/

theorem getStore_valid {st : CacheState} {s : CacheStore}
    (h : st.persisted = .valid s) : getStore st = (s, st) := by
  simp [getStore, h]

theorem putInfo_valid {st : CacheState} {s : CacheStore}
    (h : st.persisted = .valid s) (key : String) (payload : CachePayload) (now : Nat) :
    putInfo st key payload now =
      { st with persisted := .valid (putInfoStore s key payload now),
                putStoreCalls := st.putStoreCalls + 1 } := by
  simp [putInfo, getStore_valid h, putStore]

theorem putInfo_persisted (st : CacheState) (key : String) (payload : CachePayload)
    (now : Nat) :
    (putInfo st key payload now).persisted =
      .valid (putInfoStore (getStore st).1 key payload now) := by
  cases h : st.persisted <;> simp [putInfo, getStore, putStore, h]

theorem stateLookup_valid {st : CacheState} {s : CacheStore}
    (h : st.persisted = .valid s) (k : String) : stateLookup st k = storeLookup s k := by
  simp [stateLookup, h]

theorem putInfo_persisted_valid {st : CacheState} {s : CacheStore}
    (hst : st.persisted = .valid s) (key : String) (payload : CachePayload) (now : Nat) :
    (putInfo st key payload now).persisted =
      .valid (putInfoStore s key payload now) := by
  rw [putInfo_valid hst]

theorem getInfo_valid {st : CacheState} {s : CacheStore}
    (h : st.persisted = .valid s) (k : String) :
    getInfo st k = (storeLookup s k, st) := by
  rw [getInfo, getStore_valid h]

theorem lookup_evict_some (s : CacheStore) (k : String) (e : CacheEntry)
    (h : storeLookup (evict s) k = some e) : storeLookup s k = some e := by
  by_cases hlen : MAX_CACHED_IMAGES ≤ s.length
  · rw [evict_eq_filter s hlen] at h
    rw [lookup_filter_key s
      (fun x => !((((s.mergeSort evictLE).drop (MAX_CACHED_IMAGES - 1)).map
        Prod.fst).contains x)) k] at h
    split at h
    · exact h
    · exact absurd h (by simp)
  · rwa [evict_of_lt s (Nat.lt_of_not_le hlen)] at h

theorem evictLE_trans (a b c : String × CacheEntry) :
    evictLE a b → evictLE b c → evictLE a c := by
  simp only [evictLE, decide_eq_true_eq]
  omega

theorem evictLE_total (a b : String × CacheEntry) : evictLE a b || evictLE b a := by
  simp only [evictLE, Bool.or_eq_true, decide_eq_true_eq]
  omega

/-- With a full store whose entry `old` is the unique minimum by `addedDatetime`,
the eviction block deletes exactly the entries keyed by `old`'s key. -/
theorem evict_eq_filter_min (s : CacheStore) (old : String × CacheEntry)
    (hlen : s.length = MAX_CACHED_IMAGES) (hmem : old ∈ s)
    (hmin : ∀ kv ∈ s, kv ≠ old → old.2.addedDatetime < kv.2.addedDatetime) :
    evict s = s.filter (fun kv => !(kv.1 == old.1)) := by
  have h30 : MAX_CACHED_IMAGES ≤ s.length := le_of_eq hlen.symm
  rw [evict_eq_filter s h30]
  have hperm : List.Perm (s.mergeSort evictLE) s := List.mergeSort_perm s evictLE
  have hsort : (s.mergeSort evictLE).Pairwise (fun a b => evictLE a b) :=
    List.sorted_mergeSort (fun a b c => evictLE_trans a b c) evictLE_total s
  have hlen2 : (s.mergeSort evictLE).length = MAX_CACHED_IMAGES :=
    hperm.length_eq.trans hlen
  obtain ⟨x, hdropx⟩ : ∃ x, (s.mergeSort evictLE).drop (MAX_CACHED_IMAGES - 1) = [x] := by
    apply List.length_eq_one.mp
    rw [List.length_drop, hlen2]
    decide
  have hsplit : s.mergeSort evictLE =
      (s.mergeSort evictLE).take (MAX_CACHED_IMAGES - 1) ++ [x] := by
    conv_lhs => rw [← List.take_append_drop (MAX_CACHED_IMAGES - 1) (s.mergeSort evictLE)]
    rw [hdropx]
  have hx : x = old := by
    by_contra hne
    have hxl : x ∈ s.mergeSort evictLE := by rw [hsplit]; simp
    have hlt := hmin x (hperm.mem_iff.mp hxl) hne
    have holdl : old ∈ s.mergeSort evictLE := hperm.mem_iff.mpr hmem
    rw [hsplit] at holdl hsort
    rcases List.mem_append.mp holdl with h | h
    · have hpw := (List.pairwise_append.mp hsort).2.2 old h x (by simp)
      simp only [evictLE, decide_eq_true_eq] at hpw
      omega
    · simp only [List.mem_singleton] at h
      exact hne h.symm
  apply List.filter_congr
  intro kv _
  rw [hdropx, hx]
  simp only [List.map_cons, List.map_nil, List.contains_cons, List.contains_nil,
    Bool.or_false]

/-- In a store with unique keys, filtering away the key of one member removes
exactly one entry. -/
theorem length_filter_ne_key (s : CacheStore) (old : String × CacheEntry)
    (hnodup : (s.map Prod.fst).Nodup) (hmem : old ∈ s) :
    (s.filter (fun kv => !(kv.1 == old.1))).length + 1 = s.length := by
  induction s with
  | nil => cases hmem
  | cons kv rest ih =>
      rw [List.map_cons, List.nodup_cons] at hnodup
      rcases List.mem_cons.mp hmem with h | h
      · rw [List.filter_cons, if_neg (by simp [← h])]
        have hrest : rest.filter (fun kv' => !(kv'.1 == old.1)) = rest := by
          rw [List.filter_eq_self]
          intro kv' hkv'
          have hne : kv'.1 ≠ old.1 := by
            intro hh
            exact hnodup.1 (h ▸ hh ▸ List.mem_map_of_mem Prod.fst hkv')
          simp [hne]
        rw [hrest]
        simp
      · have hne : kv.1 ≠ old.1 := by
          intro hh
          exact hnodup.1 (hh ▸ List.mem_map_of_mem Prod.fst h)
        rw [List.filter_cons, if_pos (by simp [hne])]
        simpa using ih hnodup.2 h

/-! ## Claim theorems: the bounded cache -/

/-- C1: for every store state and every call to `putInfo(key, partialEntry)`, after
the call returns the persisted `CacheStore` contains at most
`MAX_CACHED_IMAGES` (30) entries. -/
theorem putInfo_card_le_max (st : CacheState) (imageUrl : String)
    (payload : CachePayload) (now : Nat) :
    ∃ store, (putInfo st imageUrl payload now).persisted = Persisted.valid store ∧
      store.length ≤ MAX_CACHED_IMAGES :=
  ⟨putInfoStore (getStore st).1 imageUrl payload now,
    putInfo_persisted st imageUrl payload now,
    length_putInfoStore_le _ _ _ _⟩

/-- C2 (counterexample): with a stored entry for `"k"` that carries dimensions,
`putInfo("k", partialEntry)` with a `partialEntry` carrying only `fileInfo` leaves
an entry whose `dimensions` field is gone: `putInfo` does not merge with the prior
entry. -/
theorem putInfo_not_merge_cex :
    (stateLookup (⟨.valid [("k", ⟨some ⟨100, 100⟩, none, 5⟩)], 0, 0⟩ : CacheState) "k").map
        (fun e => e.dimensions) = some (some ⟨100, 100⟩)
    ∧ stateLookup
        (putInfo ⟨.valid [("k", ⟨some ⟨100, 100⟩, none, 5⟩)], 0, 0⟩ "k"
          ⟨none, some ⟨some "PNG", some 3⟩⟩ 10) "k" =
      some ⟨none, some ⟨some "PNG", some 3⟩, 10⟩ := by
  constructor
  · rfl
  · rfl

/-- C2 (amended): `putInfo(key, partialEntry)` replaces the stored entry for `key`
wholesale: afterwards the entry holds exactly `partialEntry`'s payload fields with
`addedDatetime` stamped to now, and any payload field absent from `partialEntry`
is absent afterwards even if the prior entry had it (merging with the prior entry
is done by the callers `putDimensions`/`putFileInfo`). -/
theorem putInfo_replaces_entry (st : CacheState) (key : String)
    (payload : CachePayload) (now : Nat) :
    stateLookup (putInfo st key payload now) key =
      some ⟨payload.dimensions, payload.fileInfo, now⟩ := by
  rw [stateLookup_valid (putInfo_persisted st key payload now) key, putInfoStore]
  exact lookup_storeInsert_self _ _ _

/-- C6: when the persisted data under the cache key is malformed, `getStore()`
returns the empty store, logs exactly one warning, persists exactly one reset (the
empty store), and does not fail. -/
theorem getStore_malformed (st : CacheState) (h : st.persisted = .malformed) :
    getStore st =
      ([], ⟨.valid [], st.warnings + 1, st.putStoreCalls + 1⟩) := by
  simp [getStore, putStore, h]

/-- C6 witness. -/
theorem getStore_malformed_witness :
    (⟨.malformed, 0, 0⟩ : CacheState).persisted = .malformed
    ∧ getStore ⟨.malformed, 0, 0⟩ = ([], ⟨.valid [], 1, 1⟩) :=
  ⟨rfl, getStore_malformed ⟨.malformed, 0, 0⟩ rfl⟩

/-- C3: writing a 31st distinct key into a store holding exactly 30 entries whose
`addedDatetime`s single out `old` as the strictly oldest entry removes exactly one
entry — `old` — and persists the remaining 29 most recently written prior entries
followed by the newly written entry; eviction works on the pre-update snapshot, so
the new entry itself is present and never evicted. -/
theorem putInfo_evicts_oldest_on_new_key (st : CacheState) (s : CacheStore)
    (newKey : String) (payload : CachePayload) (now : Nat) (old : String × CacheEntry)
    (hst : st.persisted = .valid s)
    (hlen : s.length = MAX_CACHED_IMAGES)
    (hnodup : (s.map Prod.fst).Nodup)
    (hnew : newKey ∉ s.map Prod.fst)
    (hmem : old ∈ s)
    (hmin : ∀ kv ∈ s, kv ≠ old → old.2.addedDatetime < kv.2.addedDatetime) :
    (putInfo st newKey payload now).persisted =
      .valid (s.filter (fun kv => !(kv.1 == old.1)) ++
        [(newKey, ⟨payload.dimensions, payload.fileInfo, now⟩)])
    ∧ (s.filter (fun kv => !(kv.1 == old.1))).length = MAX_CACHED_IMAGES - 1 := by
  have hev := evict_eq_filter_min s old hlen hmem hmin
  constructor
  · rw [putInfo_persisted_valid hst, putInfoStore, hev]
    congr 1
    apply storeInsert_of_not_mem
    intro hc
    apply hnew
    obtain ⟨kv, hkv, hfst⟩ := List.mem_map.mp hc
    exact hfst ▸ List.mem_map_of_mem Prod.fst (List.mem_filter.mp hkv).1
  · have := length_filter_ne_key s old hnodup hmem
    omega

/-- C3 witness: a concrete full store of 30 entries, written with a fresh 31st key. -/
theorem putInfo_evicts_oldest_on_new_key_witness :
    ((⟨.valid store30, 0, 0⟩ : CacheState).persisted = .valid store30
      ∧ store30.length = MAX_CACHED_IMAGES
      ∧ (store30.map Prod.fst).Nodup
      ∧ "new" ∉ store30.map Prod.fst
      ∧ ("k0", (⟨none, none, 100⟩ : CacheEntry)) ∈ store30
      ∧ (∀ kv ∈ store30, kv ≠ ("k0", (⟨none, none, 100⟩ : CacheEntry)) →
          ("k0", (⟨none, none, 100⟩ : CacheEntry)).2.addedDatetime < kv.2.addedDatetime))
    ∧ ((putInfo ⟨.valid store30, 0, 0⟩ "new" ⟨none, none⟩ 999).persisted =
        .valid (store30.filter (fun kv => !(kv.1 == "k0")) ++
          [("new", ⟨none, none, 999⟩)])
      ∧ (store30.filter (fun kv => !(kv.1 == "k0"))).length = MAX_CACHED_IMAGES - 1) :=
  ⟨⟨rfl, by decide, by decide, by decide, by decide, by decide⟩,
    putInfo_evicts_oldest_on_new_key ⟨.valid store30, 0, 0⟩ store30 "new" ⟨none, none⟩
      999 ("k0", ⟨none, none, 100⟩) rfl (by decide) (by decide) (by decide) (by decide)
      (by decide)⟩

/-- C10: `putInfo` on a key that is already present while the store holds
`MAX_CACHED_IMAGES` entries still triggers eviction of the strictly oldest entry
`old` even though no new key is added: afterwards the unrelated key `old.1` is
gone, the updated entry is stored under `key`, and the store has shrunk to 29
entries. -/
theorem putInfo_existing_key_at_capacity_evicts (st : CacheState) (s : CacheStore)
    (key : String) (payload : CachePayload) (now : Nat) (old : String × CacheEntry)
    (hst : st.persisted = .valid s)
    (hlen : s.length = MAX_CACHED_IMAGES)
    (hnodup : (s.map Prod.fst).Nodup)
    (hkey : key ∈ s.map Prod.fst)
    (hne : key ≠ old.1)
    (hmem : old ∈ s)
    (hmin : ∀ kv ∈ s, kv ≠ old → old.2.addedDatetime < kv.2.addedDatetime) :
    ∃ s', (putInfo st key payload now).persisted = .valid s'
      ∧ storeLookup s' old.1 = none
      ∧ storeLookup s' key = some ⟨payload.dimensions, payload.fileInfo, now⟩
      ∧ s'.length = MAX_CACHED_IMAGES - 1 := by
  have hev := evict_eq_filter_min s old hlen hmem hmin
  refine ⟨putInfoStore s key payload now, putInfo_persisted_valid hst key payload now,
    ?_, ?_, ?_⟩
  · rw [putInfoStore, lookup_storeInsert_ne _ _ _ _ (Ne.symm hne), hev]
    rw [lookup_filter_key s (fun x => !(x == old.1)) old.1]
    simp
  · rw [putInfoStore]
    exact lookup_storeInsert_self _ _ _
  · rw [putInfoStore, hev]
    have hkf : key ∈ (s.filter (fun kv => !(kv.1 == old.1))).map Prod.fst := by
      obtain ⟨kv, hkv, hfst⟩ := List.mem_map.mp hkey
      exact List.mem_map.mpr ⟨kv, List.mem_filter.mpr ⟨hkv, by simp [hfst, hne]⟩, hfst⟩
    rw [length_storeInsert_of_mem _ _ _ hkf]
    have := length_filter_ne_key s old hnodup hmem
    omega

/-- C10 witness: updating the existing key `"k5"` of a concrete full 30-entry store. -/
theorem putInfo_existing_key_at_capacity_evicts_witness :
    ((⟨.valid store30, 0, 0⟩ : CacheState).persisted = .valid store30
      ∧ store30.length = MAX_CACHED_IMAGES
      ∧ (store30.map Prod.fst).Nodup
      ∧ "k5" ∈ store30.map Prod.fst
      ∧ "k5" ≠ ("k0", (⟨none, none, 100⟩ : CacheEntry)).1
      ∧ ("k0", (⟨none, none, 100⟩ : CacheEntry)) ∈ store30
      ∧ (∀ kv ∈ store30, kv ≠ ("k0", (⟨none, none, 100⟩ : CacheEntry)) →
          ("k0", (⟨none, none, 100⟩ : CacheEntry)).2.addedDatetime < kv.2.addedDatetime))
    ∧ (∃ s', (putInfo ⟨.valid store30, 0, 0⟩ "k5" ⟨none, none⟩ 999).persisted = .valid s'
        ∧ storeLookup s' ("k0", (⟨none, none, 100⟩ : CacheEntry)).1 = none
        ∧ storeLookup s' "k5" = some ⟨none, none, 999⟩
        ∧ s'.length = MAX_CACHED_IMAGES - 1) :=
  ⟨⟨rfl, by decide, by decide, by decide, by decide, by decide, by decide⟩,
    putInfo_existing_key_at_capacity_evicts ⟨.valid store30, 0, 0⟩ store30 "k5"
      ⟨none, none⟩ 999 ("k0", ⟨none, none, 100⟩) rfl (by decide) (by decide) (by decide)
      (by decide) (by decide) (by decide)⟩

theorem mem_keys_storeInsert (s : CacheStore) (k : String) (e : CacheEntry)
    (k' : String) (h : k' ∈ (storeInsert s k e).map Prod.fst) :
    k' = k ∨ k' ∈ s.map Prod.fst := by
  induction s with
  | nil =>
      rw [storeInsert, List.map_cons, List.map_nil, List.mem_cons] at h
      rcases h with h1 | h1
      · exact Or.inl h1
      · cases h1
  | cons kv rest ih =>
      simp only [storeInsert] at h
      split at h
      · rw [List.map_cons, List.mem_cons] at h
        rcases h with h1 | h1
        · exact Or.inl h1
        · exact Or.inr (by rw [List.map_cons, List.mem_cons]; exact Or.inr h1)
      · rw [List.map_cons, List.mem_cons] at h
        rcases h with h1 | h1
        · exact Or.inr (by rw [List.map_cons, List.mem_cons]; exact Or.inl h1)
        · rcases ih h1 with h2 | h2
          · exact Or.inl h2
          · exact Or.inr (by rw [List.map_cons, List.mem_cons]; exact Or.inr h2)

theorem nodup_keys_storeInsert (s : CacheStore) (k : String) (e : CacheEntry)
    (h : (s.map Prod.fst).Nodup) : ((storeInsert s k e).map Prod.fst).Nodup := by
  induction s with
  | nil => simp [storeInsert]
  | cons kv rest ih =>
      rw [List.map_cons, List.nodup_cons] at h
      simp only [storeInsert]
      split
      · rename_i heq
        rw [List.map_cons, List.nodup_cons]
        exact ⟨(beq_iff_eq.mp heq) ▸ h.1, h.2⟩
      · rename_i hne
        rw [List.map_cons, List.nodup_cons]
        refine ⟨?_, ih h.2⟩
        intro hc
        rcases mem_keys_storeInsert rest k e kv.1 hc with h1 | h1
        · exact hne (beq_iff_eq.mpr h1)
        · exact h.1 h1

theorem nodup_keys_evict (s : CacheStore) (h : (s.map Prod.fst).Nodup) :
    ((evict s).map Prod.fst).Nodup := by
  by_cases hlen : MAX_CACHED_IMAGES ≤ s.length
  · rw [evict_eq_filter s hlen]
    exact h.sublist ((List.filter_sublist s).map Prod.fst)
  · rwa [evict_of_lt s (Nat.lt_of_not_le hlen)]

theorem countP_key_storeInsert (s : CacheStore) (k : String) (e : CacheEntry)
    (h : (s.map Prod.fst).Nodup) :
    (storeInsert s k e).countP (fun kv => kv.1 == k) = 1 := by
  induction s with
  | nil => simp [storeInsert, List.countP_cons]
  | cons kv rest ih =>
      rw [List.map_cons, List.nodup_cons] at h
      simp only [storeInsert]
      split
      · rename_i heq
        have hk : kv.1 = k := beq_iff_eq.mp heq
        have hz : rest.countP (fun kv' => kv'.1 == k) = 0 := by
          rw [List.countP_eq_zero]
          intro kv' hkv' hc
          exact h.1 (hk ▸ (beq_iff_eq.mp hc) ▸ List.mem_map_of_mem Prod.fst hkv')
        simp [List.countP_cons, hz]
      · rename_i hne
        simpa [List.countP_cons, hne] using ih h.2

theorem nodup_keys_putInfoStore (s : CacheStore) (key : String) (payload : CachePayload)
    (now : Nat) (h : (s.map Prod.fst).Nodup) :
    ((putInfoStore s key payload now).map Prod.fst).Nodup := by
  rw [putInfoStore]
  exact nodup_keys_storeInsert _ _ _ (nodup_keys_evict s h)

theorem countP_key_putInfoStore (s : CacheStore) (key : String) (payload : CachePayload)
    (now : Nat) (h : (s.map Prod.fst).Nodup) :
    (putInfoStore s key payload now).countP (fun kv => kv.1 == key) = 1 := by
  rw [putInfoStore]
  exact countP_key_storeInsert _ _ _ (nodup_keys_evict s h)

/-- C7: on a well-formed state, `putDimensions` followed by `putFileInfo` on the same
key (or vice versa) yields a single stored entry for that key containing both the
dimensions and the file info: each convenience writer preserves the other payload
field of the existing entry. -/
theorem putDimensions_putFileInfo_merge (st : CacheState) (s : CacheStore)
    (key : String) (dims : Dimensions) (fi : FileInfo) (t1 t2 : Nat)
    (hst : st.persisted = .valid s) (hnodup : (s.map Prod.fst).Nodup) :
    (∃ s', (putFileInfo (putDimensions st key dims t1) key fi t2).persisted = .valid s'
      ∧ storeLookup s' key = some ⟨some dims, some fi, t2⟩
      ∧ s'.countP (fun kv => kv.1 == key) = 1)
    ∧ (∃ s', (putDimensions (putFileInfo st key fi t1) key dims t2).persisted = .valid s'
      ∧ storeLookup s' key = some ⟨some dims, some fi, t2⟩
      ∧ s'.countP (fun kv => kv.1 == key) = 1) := by
  have hg : getInfo st key = (storeLookup s key, st) := getInfo_valid hst key
  constructor
  · have h1 : putDimensions st key dims t1 =
        putInfo st key ⟨some dims, (storeLookup s key).bind (fun e => e.fileInfo)⟩ t1 := by
      rw [putDimensions, hg]
    have hs1 : (putDimensions st key dims t1).persisted =
        .valid (putInfoStore s key
          ⟨some dims, (storeLookup s key).bind (fun e => e.fileInfo)⟩ t1) := by
      rw [h1]
      exact putInfo_persisted_valid hst key _ t1
    have hn1 := nodup_keys_putInfoStore s key
      ⟨some dims, (storeLookup s key).bind (fun e => e.fileInfo)⟩ t1 hnodup
    have hlk1 : storeLookup (putInfoStore s key
        ⟨some dims, (storeLookup s key).bind (fun e => e.fileInfo)⟩ t1) key =
        some ⟨some dims, (storeLookup s key).bind (fun e => e.fileInfo), t1⟩ := by
      rw [putInfoStore]
      exact lookup_storeInsert_self _ _ _
    have hg2 : getInfo (putDimensions st key dims t1) key =
        (some ⟨some dims, (storeLookup s key).bind (fun e => e.fileInfo), t1⟩,
          putDimensions st key dims t1) := by
      rw [getInfo_valid hs1 key, hlk1]
    have h2 : putFileInfo (putDimensions st key dims t1) key fi t2 =
        putInfo (putDimensions st key dims t1) key ⟨some dims, some fi⟩ t2 := by
      rw [putFileInfo, hg2]
      rfl
    refine ⟨putInfoStore (putInfoStore s key
        ⟨some dims, (storeLookup s key).bind (fun e => e.fileInfo)⟩ t1) key
        ⟨some dims, some fi⟩ t2, ?_, ?_, ?_⟩
    · rw [h2]
      exact putInfo_persisted_valid hs1 key _ t2
    · rw [putInfoStore]
      exact lookup_storeInsert_self _ _ _
    · exact countP_key_putInfoStore _ _ _ _ hn1
  · have h1 : putFileInfo st key fi t1 =
        putInfo st key ⟨(storeLookup s key).bind (fun e => e.dimensions), some fi⟩ t1 := by
      rw [putFileInfo, hg]
    have hs1 : (putFileInfo st key fi t1).persisted =
        .valid (putInfoStore s key
          ⟨(storeLookup s key).bind (fun e => e.dimensions), some fi⟩ t1) := by
      rw [h1]
      exact putInfo_persisted_valid hst key _ t1
    have hn1 := nodup_keys_putInfoStore s key
      ⟨(storeLookup s key).bind (fun e => e.dimensions), some fi⟩ t1 hnodup
    have hlk1 : storeLookup (putInfoStore s key
        ⟨(storeLookup s key).bind (fun e => e.dimensions), some fi⟩ t1) key =
        some ⟨(storeLookup s key).bind (fun e => e.dimensions), some fi, t1⟩ := by
      rw [putInfoStore]
      exact lookup_storeInsert_self _ _ _
    have hg2 : getInfo (putFileInfo st key fi t1) key =
        (some ⟨(storeLookup s key).bind (fun e => e.dimensions), some fi, t1⟩,
          putFileInfo st key fi t1) := by
      rw [getInfo_valid hs1 key, hlk1]
    have h2 : putDimensions (putFileInfo st key fi t1) key dims t2 =
        putInfo (putFileInfo st key fi t1) key ⟨some dims, some fi⟩ t2 := by
      rw [putDimensions, hg2]
      rfl
    refine ⟨putInfoStore (putInfoStore s key
        ⟨(storeLookup s key).bind (fun e => e.dimensions), some fi⟩ t1) key
        ⟨some dims, some fi⟩ t2, ?_, ?_, ?_⟩
    · rw [h2]
      exact putInfo_persisted_valid hs1 key _ t2
    · rw [putInfoStore]
      exact lookup_storeInsert_self _ _ _
    · exact countP_key_putInfoStore _ _ _ _ hn1

/-- C7 witness: both write orders on an initially empty store. -/
theorem putDimensions_putFileInfo_merge_witness :
    ((⟨.valid [], 0, 0⟩ : CacheState).persisted = .valid []
      ∧ (([] : CacheStore).map Prod.fst).Nodup)
    ∧ ((∃ s', (putFileInfo (putDimensions ⟨.valid [], 0, 0⟩ "k" ⟨12, 34⟩ 1) "k"
            ⟨some "PNG", some 5⟩ 2).persisted = .valid s'
        ∧ storeLookup s' "k" = some ⟨some ⟨12, 34⟩, some ⟨some "PNG", some 5⟩, 2⟩
        ∧ s'.countP (fun kv => kv.1 == "k") = 1)
      ∧ (∃ s', (putDimensions (putFileInfo ⟨.valid [], 0, 0⟩ "k"
            ⟨some "PNG", some 5⟩ 1) "k" ⟨12, 34⟩ 2).persisted = .valid s'
        ∧ storeLookup s' "k" = some ⟨some ⟨12, 34⟩, some ⟨some "PNG", some 5⟩, 2⟩
        ∧ s'.countP (fun kv => kv.1 == "k") = 1)) :=
  ⟨⟨rfl, by decide⟩,
    putDimensions_putFileInfo_merge ⟨.valid [], 0, 0⟩ [] "k" ⟨12, 34⟩
      ⟨some "PNG", some 5⟩ 1 2 rfl (by decide)⟩

/-- C9: after `putInfo(key, payload)` at time `now`, the stored entry for `key` has
`addedDatetime = now` (every write refreshes the timestamp); any other key that is
still present keeps exactly the entry (including `addedDatetime`) it had before;
and read operations do not modify the state at all. -/
theorem putInfo_stamps_addedDatetime (st : CacheState) (s : CacheStore) (key : String)
    (payload : CachePayload) (now : Nat) (hst : st.persisted = .valid s) :
    (∃ e, stateLookup (putInfo st key payload now) key = some e ∧ e.addedDatetime = now)
    ∧ (∀ k', k' ≠ key → ∀ e, stateLookup (putInfo st key payload now) k' = some e →
        storeLookup s k' = some e)
    ∧ (getInfo st key).2 = st := by
  refine ⟨⟨⟨payload.dimensions, payload.fileInfo, now⟩,
    putInfo_replaces_entry st key payload now, rfl⟩, ?_, ?_⟩
  · intro k' hk' e he
    rw [stateLookup_valid (putInfo_persisted_valid hst key payload now) k',
      putInfoStore, lookup_storeInsert_ne _ _ _ _ hk'] at he
    exact lookup_evict_some s k' e he
  · simp [getInfo, getStore_valid hst]

/-- C9 witness. -/
theorem putInfo_stamps_addedDatetime_witness :
    (⟨.valid [("a", ⟨none, none, 3⟩)], 0, 0⟩ : CacheState).persisted =
        .valid [("a", ⟨none, none, 3⟩)]
    ∧ ((∃ e, stateLookup
          (putInfo ⟨.valid [("a", ⟨none, none, 3⟩)], 0, 0⟩ "b" ⟨none, none⟩ 7) "b" =
            some e ∧ e.addedDatetime = 7)
      ∧ (∀ k', k' ≠ "b" → ∀ e, stateLookup
            (putInfo ⟨.valid [("a", ⟨none, none, 3⟩)], 0, 0⟩ "b" ⟨none, none⟩ 7) k' =
              some e → storeLookup [("a", ⟨none, none, 3⟩)] k' = some e)
      ∧ (getInfo ⟨.valid [("a", ⟨none, none, 3⟩)], 0, 0⟩ "b").2 =
          ⟨.valid [("a", ⟨none, none, 3⟩)], 0, 0⟩) :=
  ⟨rfl, putInfo_stamps_addedDatetime ⟨.valid [("a", ⟨none, none, 3⟩)], 0, 0⟩
    [("a", ⟨none, none, 3⟩)] "b" ⟨none, none⟩ 7 rfl⟩

/-! ## Lemmas about the retry loop -/

theorem pRetryAux_ok (op : Nat → Except FetchError HTTPResponse) (a r w : Nat)
    (resp : HTTPResponse) (h : op a = .ok resp) :
    pRetryAux op a r w = ⟨.ok resp, a + 1, w⟩ := by
  rw [pRetryAux.eq_def, h]

theorem pRetryAux_abort (op : Nat → Except FetchError HTTPResponse) (a r w : Nat)
    (e : FetchError) (h : op a = .error e) (ha : shouldAbort e = true) :
    pRetryAux op a r w = ⟨.error e, a + 1, w⟩ := by
  cases r with
  | zero => rw [pRetryAux.eq_def, h]; simp [ha]
  | succ n => rw [pRetryAux.eq_def, h]; simp [ha]

theorem pRetryAux_retry (op : Nat → Except FetchError HTTPResponse) (a r w : Nat)
    (e : FetchError) (h : op a = .error e) (ha : shouldAbort e = false) :
    pRetryAux op a (r + 1) w = pRetryAux op (a + 1) r (w + 1) := by
  rw [pRetryAux.eq_def, h]
  simp [ha]

theorem pRetryAux_last (op : Nat → Except FetchError HTTPResponse) (a w : Nat)
    (e : FetchError) (h : op a = .error e) (ha : shouldAbort e = false) :
    pRetryAux op a 0 w = ⟨.error e, a + 1, w + 1⟩ := by
  rw [pRetryAux.eq_def, h]
  simp [ha]

/-! ## Lemmas about header extraction -/

theorem matchLitCI_append_self (p rest : List Char) :
    matchLitCI p (p ++ rest) = some rest := by
  induction p with
  | nil => rfl
  | cons c cs ih => simp [matchLitCI, ih]

theorem scanFirst_cons_of_some (f : List Char → Option (List Char)) (c : Char)
    (cs : List Char) (r : List Char) (h : f (c :: cs) = some r) :
    scanFirst f (c :: cs) = some r := by
  rw [scanFirst, h]

theorem matchContentLengthAt_of_digits (ds : List Char) (hne : ds ≠ [])
    (hd : ∀ c ∈ ds, c.isDigit) :
    matchContentLengthAt ("content-length: ".data ++ ds) = some ds := by
  rw [matchContentLengthAt.eq_def, matchLitCI_append_self]
  simp only [List.takeWhile_eq_self_iff.mpr hd, List.isEmpty_eq_false.mpr hne,
    Bool.false_eq_true, if_false]

theorem matchContentTypeAt_of_words (t w : List Char)
    (htne : t ≠ []) (ht : ∀ c ∈ t, isWordChar c)
    (hwne : w ≠ []) (hw : ∀ c ∈ w, isWordChar c) :
    matchContentTypeAt ("content-type: ".data ++ (t ++ '/' :: w)) = some w := by
  rw [matchContentTypeAt.eq_def, matchLitCI_append_self]
  have h1 : (t ++ '/' :: w).takeWhile isWordChar = t := by
    rw [List.takeWhile_append_of_pos ht, List.takeWhile_cons_of_neg (by decide),
      List.append_nil]
  have h2 : (t ++ '/' :: w).drop t.length = '/' :: w := List.drop_left t ('/' :: w)
  simp only [h1, h2, List.isEmpty_eq_false.mpr htne, Bool.false_eq_true, if_false,
    List.takeWhile_eq_self_iff.mpr hw, List.isEmpty_eq_false.mpr hwne]

theorem extractFileInfo_content_length (ds : List Char) (hne : ds ≠ [])
    (hd : ∀ c ∈ ds, c.isDigit) :
    (extractFileInfo (String.mk ("content-length: ".data ++ ds))).size =
      some (parseIntNat ds) := by
  have hcons : "content-length: ".data ++ ds =
      'c' :: ("ontent-length: ".data ++ ds) := rfl
  have h0 : scanFirst matchContentLengthAt ("content-length: ".data ++ ds) =
      some ds := by
    rw [hcons]
    apply scanFirst_cons_of_some
    rw [← hcons]
    exact matchContentLengthAt_of_digits ds hne hd
  show (scanFirst matchContentLengthAt ("content-length: ".data ++ ds)).map
      parseIntNat = some (parseIntNat ds)
  rw [h0]
  rfl

theorem extractFileInfo_content_type (t w : List Char)
    (htne : t ≠ []) (ht : ∀ c ∈ t, isWordChar c)
    (hwne : w ≠ []) (hw : ∀ c ∈ w, isWordChar c) :
    (extractFileInfo (String.mk ("content-type: ".data ++ (t ++ '/' :: w)))).fileType =
      some (toUpperStr w) := by
  have hcons : "content-type: ".data ++ (t ++ '/' :: w) =
      'c' :: ("ontent-type: ".data ++ (t ++ '/' :: w)) := rfl
  have h0 : scanFirst matchContentTypeAt ("content-type: ".data ++ (t ++ '/' :: w)) =
      some w := by
    rw [hcons]
    apply scanFirst_cons_of_some
    rw [← hcons]
    exact matchContentTypeAt_of_words t w htne ht hwne hw
  show (scanFirst matchContentTypeAt ("content-type: ".data ++ (t ++ '/' :: w))).map
      toUpperStr = some (toUpperStr w)
  rw [h0]
  rfl

/-! ## Claim theorems: the retrying fetcher -/

/-- C4: a failure that is a structured HTTP-response error with a client-error
status (400 ≤ code < 500, code ≠ 429) is re-raised immediately: one attempt, no
retry, no warning.  Every other failure — an unstructured network error, a 5xx, or
a 429 — is retried, after logging one warning for the failed attempt.  In
particular, three 429s followed by a success succeed after three retries with
three warnings logged. -/
theorem loadFileInfo_retry_policy (op : Nat → Except FetchError HTTPResponse) :
    (∀ code msg, 400 ≤ code → code < 500 → code ≠ 429 →
      op 0 = .error (.httpResponseError code msg) →
      loadFileInfo op = ⟨.error (.httpResponseError code msg), 1, 0⟩)
    ∧ (∀ msg, op 0 = .error (.networkError msg) →
        pRetryRun op = pRetryAux op 1 4 1)
    ∧ (∀ code msg, op 0 = .error (.httpResponseError code msg) →
        500 ≤ code ∨ code = 429 →
        pRetryRun op = pRetryAux op 1 4 1)
    ∧ (∀ msg resp, (∀ i, i < 3 → op i = .error (.httpResponseError 429 msg)) →
        op 3 = .ok resp →
        loadFileInfo op = ⟨.ok (extractFileInfo resp.responseHeaders), 4, 3⟩) := by
  refine ⟨?_, ?_, ?_, ?_⟩
  · intro code msg h400 h500 h429 h0
    have habort : shouldAbort (.httpResponseError code msg) = true := by
      simp [shouldAbort, h500, h429]
    have hrun : pRetryRun op = ⟨.error (.httpResponseError code msg), 1, 0⟩ := by
      rw [pRetryRun]
      exact pRetryAux_abort op 0 5 0 _ h0 habort
    rw [loadFileInfo, hrun]
    rfl
  · intro msg h0
    rw [pRetryRun]
    exact pRetryAux_retry op 0 4 0 _ h0 rfl
  · intro code msg h0 hcode
    have hret : shouldAbort (.httpResponseError code msg) = false := by
      rcases hcode with h | h
      · simp [shouldAbort, Nat.not_lt.mpr h]
      · simp [shouldAbort, h]
    rw [pRetryRun]
    exact pRetryAux_retry op 0 4 0 _ h0 hret
  · intro msg resp h3 hok
    have hret : shouldAbort (.httpResponseError 429 msg) = false := by
      simp [shouldAbort]
    have hrun : pRetryRun op = ⟨.ok resp, 4, 3⟩ := by
      rw [pRetryRun]
      calc pRetryAux op 0 5 0
          = pRetryAux op 1 4 1 := pRetryAux_retry op 0 4 0 _ (h3 0 (by decide)) hret
        _ = pRetryAux op 2 3 2 := pRetryAux_retry op 1 3 1 _ (h3 1 (by decide)) hret
        _ = pRetryAux op 3 2 3 := pRetryAux_retry op 2 2 2 _ (h3 2 (by decide)) hret
        _ = ⟨.ok resp, 4, 3⟩ := pRetryAux_ok op 3 2 3 resp hok
    rw [loadFileInfo, hrun]
    rfl

/-- C4 witness: HTTP 404 fails on the first attempt with no retry and no warning;
a network error and an HTTP 500 are both retried with a warning; three 429s
followed by a 200 succeed on the fourth attempt with three warnings. -/
theorem loadFileInfo_retry_policy_witness :
    ((400 ≤ 404 ∧ 404 < 500 ∧ 404 ≠ 429
        ∧ opAlways404 0 = .error (.httpResponseError 404 "HTTP error 404"))
      ∧ loadFileInfo opAlways404 =
          ⟨.error (.httpResponseError 404 "HTTP error 404"), 1, 0⟩)
    ∧ (opNetErr 0 = .error (.networkError "network error")
      ∧ pRetryRun opNetErr = pRetryAux opNetErr 1 4 1)
    ∧ ((opAlways500 0 = .error (.httpResponseError 500 "HTTP error 500")
        ∧ (500 ≤ 500 ∨ (500 : Nat) = 429))
      ∧ pRetryRun opAlways500 = pRetryAux opAlways500 1 4 1)
    ∧ ((∀ i, i < 3 → op429Then200 i = .error (.httpResponseError 429 "HTTP error 429"))
      ∧ op429Then200 3 = .ok ⟨"Content-Length: 12345\r\nContent-Type: image/png"⟩
      ∧ loadFileInfo op429Then200 =
          ⟨.ok (extractFileInfo "Content-Length: 12345\r\nContent-Type: image/png"),
            4, 3⟩) :=
  ⟨⟨⟨by decide, by decide, by decide, rfl⟩,
      (loadFileInfo_retry_policy opAlways404).1 404 "HTTP error 404"
        (by decide) (by decide) (by decide) rfl⟩,
    ⟨rfl, (loadFileInfo_retry_policy opNetErr).2.1 "network error" rfl⟩,
    ⟨⟨rfl, Or.inl (by decide)⟩,
      (loadFileInfo_retry_policy opAlways500).2.2.1 500 "HTTP error 500" rfl
        (Or.inl (by decide))⟩,
    ⟨fun i hi => by
        rw [op429Then200]
        simp [hi],
      rfl,
      (loadFileInfo_retry_policy op429Then200).2.2.2 "HTTP error 429"
        ⟨"Content-Length: 12345\r\nContent-Type: image/png"⟩
        (fun i hi => by rw [op429Then200]; simp [hi]) rfl⟩⟩

/-- C5: when all six attempts fail with retryable failures, `loadFileInfo` makes
exactly 6 attempts (1 initial + 5 retries) and then fails, propagating the last
encountered failure. -/
theorem loadFileInfo_exhausts_retries (op : Nat → Except FetchError HTTPResponse)
    (es : Nat → FetchError)
    (hop : ∀ i, i ≤ 5 → op i = .error (es i))
    (hretry : ∀ i, i ≤ 5 → shouldAbort (es i) = false) :
    loadFileInfo op = ⟨.error (es 5), 6, 6⟩ := by
  have hrun : pRetryRun op = ⟨.error (es 5), 6, 6⟩ := by
    rw [pRetryRun]
    calc pRetryAux op 0 5 0
        = pRetryAux op 1 4 1 :=
          pRetryAux_retry op 0 4 0 _ (hop 0 (by decide)) (hretry 0 (by decide))
      _ = pRetryAux op 2 3 2 :=
          pRetryAux_retry op 1 3 1 _ (hop 1 (by decide)) (hretry 1 (by decide))
      _ = pRetryAux op 3 2 3 :=
          pRetryAux_retry op 2 2 2 _ (hop 2 (by decide)) (hretry 2 (by decide))
      _ = pRetryAux op 4 1 4 :=
          pRetryAux_retry op 3 1 3 _ (hop 3 (by decide)) (hretry 3 (by decide))
      _ = pRetryAux op 5 0 5 :=
          pRetryAux_retry op 4 0 4 _ (hop 4 (by decide)) (hretry 4 (by decide))
      _ = ⟨.error (es 5), 6, 6⟩ :=
          pRetryAux_last op 5 5 _ (hop 5 (by decide)) (hretry 5 (by decide))
  rw [loadFileInfo, hrun]
  rfl

/-- C8: on a successful response, `loadFileInfo` extracts metadata from the raw
headers case-insensitively: a `content-length: <digits>` header yields that
integer as the size (an absent header yields an absent size, not a failure), and a
`content-type: type/subtype` header yields the subtype upper-cased as the file
type (an absent header yields an absent file type); in particular headers
`content-length: 12345` and `content-type: image/png` yield
`{size: 12345, fileType: "PNG"}`, in any casing. -/
theorem loadFileInfo_header_extraction (op : Nat → Except FetchError HTTPResponse) :
    (∀ resp, op 0 = .ok resp →
      loadFileInfo op = ⟨.ok (extractFileInfo resp.responseHeaders), 1, 0⟩)
    ∧ extractFileInfo "Content-Length: 12345\r\nContent-Type: image/png" =
        ⟨some "PNG", some 12345⟩
    ∧ extractFileInfo "content-length: 12345\r\ncontent-type: image/png" =
        ⟨some "PNG", some 12345⟩
    ∧ extractFileInfo "CONTENT-LENGTH: 12345\r\nCONTENT-TYPE: IMAGE/PNG" =
        ⟨some "PNG", some 12345⟩
    ∧ extractFileInfo "Content-Type: image/png" = ⟨some "PNG", none⟩
    ∧ extractFileInfo "Content-Length: 12345" = ⟨none, some 12345⟩
    ∧ (∀ ds : List Char, ds ≠ [] → (∀ c ∈ ds, c.isDigit) →
        (extractFileInfo (String.mk ("content-length: ".data ++ ds))).size =
          some (parseIntNat ds))
    ∧ (∀ t w : List Char, t ≠ [] → (∀ c ∈ t, isWordChar c) → w ≠ [] →
        (∀ c ∈ w, isWordChar c) →
        (extractFileInfo (String.mk
          ("content-type: ".data ++ (t ++ '/' :: w)))).fileType =
          some (toUpperStr w)) := by
  refine ⟨?_, by decide, by decide, by decide, by decide, by decide,
    extractFileInfo_content_length, extractFileInfo_content_type⟩
  intro resp h
  have hrun : pRetryRun op = ⟨.ok resp, 1, 0⟩ := by
    rw [pRetryRun]
    exact pRetryAux_ok op 0 5 0 resp h
  rw [loadFileInfo, hrun]
  rfl

/-- C8 witness: one immediately successful probe whose headers carry
`Content-Length: 12345` and `Content-Type: image/png`, plus concrete instances of
the two general header schemas. -/
theorem loadFileInfo_header_extraction_witness :
    (opOk 0 = .ok ⟨"Content-Length: 12345\r\nContent-Type: image/png"⟩
      ∧ loadFileInfo opOk =
          ⟨.ok (extractFileInfo "Content-Length: 12345\r\nContent-Type: image/png"),
            1, 0⟩)
    ∧ (("12345".data ≠ [] ∧ ∀ c ∈ "12345".data, c.isDigit)
      ∧ (extractFileInfo (String.mk ("content-length: ".data ++ "12345".data))).size =
          some (parseIntNat "12345".data))
    ∧ (("image".data ≠ [] ∧ (∀ c ∈ "image".data, isWordChar c)
        ∧ "png".data ≠ [] ∧ (∀ c ∈ "png".data, isWordChar c))
      ∧ (extractFileInfo (String.mk ("content-type: ".data ++
            ("image".data ++ '/' :: "png".data)))).fileType =
          some (toUpperStr "png".data)) :=
  ⟨⟨rfl, (loadFileInfo_header_extraction opOk).1
      ⟨"Content-Length: 12345\r\nContent-Type: image/png"⟩ rfl⟩,
    ⟨⟨by decide, by decide⟩,
      (loadFileInfo_header_extraction opOk).2.2.2.2.2.2.1 "12345".data
        (by decide) (by decide)⟩,
    ⟨⟨by decide, by decide, by decide, by decide⟩,
      (loadFileInfo_header_extraction opOk).2.2.2.2.2.2.2 "image".data "png".data
        (by decide) (by decide) (by decide) (by decide)⟩⟩

/-- C5 witness: six consecutive HTTP 500 failures exhaust the retries. -/
theorem loadFileInfo_exhausts_retries_witness :
    ((∀ i, i ≤ 5 →
        opAlways500 i = .error (.httpResponseError 500 "HTTP error 500"))
      ∧ (∀ i : Nat, i ≤ 5 →
        shouldAbort (.httpResponseError 500 "HTTP error 500") = false))
    ∧ loadFileInfo opAlways500 =
        ⟨.error (.httpResponseError 500 "HTTP error 500"), 6, 6⟩ :=
  ⟨⟨fun _ _ => rfl, fun _ _ => by decide⟩,
    loadFileInfo_exhausts_retries opAlways500
      (fun _ => .httpResponseError 500 "HTTP error 500")
      (fun _ _ => rfl) (fun _ _ => rfl)⟩

end Dims
